import Mathlib

/-!
Verification of the BLS (Bureau of Labor Statistics) economic time-series
acquisition layer of the PAC-LanternAI backend.

The definitions below are a shallow embedding of
`backend/src/services/blsClient.ts`, `backend/src/config/blsConfig.ts`,
`backend/src/data/careerBlsMappings.ts` and
`backend/src/services/careerEconomicService.ts`.

Modelling conventions:
- `process.env` is an explicit `Env` snapshot (absent variable = `none`).
- `Date.now()` is an explicit `now : Nat` parameter (milliseconds).
- The module-level in-memory cache (`const cache = new Map(...)`) is threaded
  explicitly as a `Cache` value (association list with `Map.set` overwrite
  semantics).
- The transport (`fetch`) is an oracle `Nat → FetchOutcome` indexed by a
  global attempt counter; `NetState` records the instrumentation the claims
  talk about: how many logical exchanges (`fetchWithRetry` invocations) and
  physical attempts (`fetch` invocations) happened, which request bodies were
  sent, and which backoff sleeps were performed.
- JavaScript's in-place `seriesIds.sort()` inside `getCacheKey` is modelled by
  computing `sortStrings` and reporting the array's post-call value in the
  `idsAfter` field of each result.
- JS falsiness: `x || d` on strings treats `""` like absence; `y || 'null'`
  on numbers treats `0` like absence.
-/

/-- One data point of a series (`BLSSeriesData` in blsClient.ts). -/
structure BLSSeriesData where
  year : String
  period : String
  periodName : String
  value : String
  footnotes : List (String × String)
deriving DecidableEq

/-- One series of the provider response (`BLSSeries` in blsClient.ts). -/
structure BLSSeries where
  seriesID : String
  data : List BLSSeriesData
deriving DecidableEq

/-- The parsed provider envelope (`BLSApiResponse` in blsClient.ts);
`results` models the optional `Results?.series` list. -/
structure BLSApiResponse where
  status : String
  responseTime : Nat
  message : List String
  results : Option (List BLSSeries)
deriving DecidableEq

/-- An HTTP response as seen by the client: status, status text and the
JSON-parsed body (`response.json()` is folded into the model). -/
structure HttpResponse where
  status : Nat
  statusText : String
  body : BLSApiResponse
deriving DecidableEq

/-- Outcome of one physical `fetch` attempt: either a response or a
transport-level failure (the promise rejecting). -/
inductive FetchOutcome where
  | success (resp : HttpResponse)
  | networkError (msg : String)
deriving DecidableEq

/-- The outbound JSON request body built by `fetchSeriesData`. -/
structure RequestBody where
  seriesid : List String
  startyear : Option String
  endyear : Option String
  registrationkey : Option String
deriving DecidableEq

/-- Instrumentation of the network: number of logical exchanges
(`fetchWithRetry` invocations), number of physical attempts (`fetch` calls),
the sleep durations performed by the backoff loop, and every request body
sent, in order. -/
structure NetState where
  exchanges : Nat := 0
  attempts : Nat := 0
  sleeps : List Nat := []
  requests : List RequestBody := []
deriving DecidableEq

/-- Result of `fetchWithRetry`: a response handed back to the caller, or the
`TransientFailure` thrown after exhausting all attempts. -/
inductive RetryResult where
  | ok (resp : HttpResponse)
  | transientFailure (msg : String)
deriving DecidableEq

/-- Error taxonomy of the client (each constructor corresponds to one
`throw new Error(...)` site in blsClient.ts). -/
inductive BLSError where
  | transientFailure (msg : String)
  | providerHttpError (status : Nat) (statusText : String)
  | providerApiError (msg : String)
deriving DecidableEq

/-- A cache entry (`CacheEntry` in blsClient.ts). -/
structure CacheEntry where
  data : List BLSSeries
  timestamp : Nat
deriving DecidableEq

/-- The in-memory cache, with `Map` get/set semantics. -/
abbrev Cache := List (String × CacheEntry)

deriving instance DecidableEq for Except

/-- Embedding of `cache.get(key)`. -/
def cacheGet (c : Cache) (k : String) : Option CacheEntry :=
  (c.find? (fun p => p.1 == k)).map (fun p => p.2)

/-- Embedding of `cache.set(key, entry)` — overwrites any existing entry for the key. -/
def cacheSet (c : Cache) (k : String) (e : CacheEntry) : Cache :=
  (k, e) :: c.filter (fun p => p.1 != k)

/-- Removal of one key, used to state "behaves as if the entry were absent". -/
def cacheRemove (c : Cache) (k : String) : Cache :=
  c.filter (fun p => p.1 != k)

/-- Snapshot of the process environment variables the layer reads. -/
structure Env where
  BLS_API_KEY : Option String := none
  BLS_CACHE_ENABLED : Option String := none
  BLS_ENABLED : Option String := none
  BLS_SERIES_CPI : Option String := none
  BLS_SERIES_UNEMPLOYMENT : Option String := none
  BLS_SERIES_WAGES : Option String := none
  BLS_CACHE_TTL_MS : Option String := none
  BLS_RETRY_MAX_ATTEMPTS : Option String := none
  BLS_RETRY_BASE_DELAY_MS : Option String := none
deriving DecidableEq

/-- Per-call configuration overrides (`Partial<BLSClientConfig>` in
blsClient.ts): an absent field does not override. -/
structure BLSClientConfig where
  apiKey : Option String := none
  baseUrl : Option String := none
  enableCache : Option Bool := none
  cacheTTL : Option Nat := none
  maxRetries : Option Nat := none
  retryDelay : Option Nat := none
deriving DecidableEq

/-- A fully resolved configuration (`Required<BLSClientConfig>`). -/
structure ResolvedConfig where
  apiKey : String
  baseUrl : String
  enableCache : Bool
  cacheTTL : Nat
  maxRetries : Nat
  retryDelay : Nat
deriving DecidableEq

/-- Embedding of `DEFAULT_CONFIG` in blsClient.ts. -/
def DEFAULT_CONFIG : ResolvedConfig :=
  { apiKey := ""
    baseUrl := "https://api.bls.gov/publicAPI/v2"
    enableCache := true
    cacheTTL := 3600000
    maxRetries := 3
    retryDelay := 1000 }

/-- Embedding of `getConfig(overrides)` in blsClient.ts: spread the defaults, overwrite
`apiKey` and `enableCache` from the environment, then spread the explicit
overrides.  Note the source reads only `BLS_API_KEY` and `BLS_CACHE_ENABLED`
here; it does not consult the environment for the TTL or retry fields. -/
def getConfig (env : Env) (o : BLSClientConfig) : ResolvedConfig :=
  let base : ResolvedConfig :=
    { DEFAULT_CONFIG with
      apiKey := env.BLS_API_KEY.getD ""
      enableCache := env.BLS_CACHE_ENABLED != some "false" }
  { apiKey := o.apiKey.getD base.apiKey
    baseUrl := o.baseUrl.getD base.baseUrl
    enableCache := o.enableCache.getD base.enableCache
    cacheTTL := o.cacheTTL.getD base.cacheTTL
    maxRetries := o.maxRetries.getD base.maxRetries
    retryDelay := o.retryDelay.getD base.retryDelay }

/-- Lexicographic comparison of character lists by code point, mirroring the
code-unit comparison JavaScript's default `Array.prototype.sort` comparator
performs on strings. -/
def charListLe : List Char → List Char → Bool
  | [], _ => true
  | _ :: _, [] => false
  | a :: as, b :: bs =>
      if a.toNat < b.toNat then true
      else if b.toNat < a.toNat then false
      else charListLe as bs

/-- String comparison used by `seriesIds.sort()`. -/
def strLe (a b : String) : Bool :=
  charListLe a.data b.data

/-- The sort performed by `seriesIds.sort()` (default lexicographic string
comparison). -/
def sortStrings (l : List String) : List String :=
  l.insertionSort (fun a b => strLe a b = true)

/-- The `${startYear || 'null'}` fragments of the cache key: an absent year,
and also the (falsy) year `0`, render as `"null"`. -/
def yearKeyPart : Option Int → String
  | none => "null"
  | some y => if y = 0 then "null" else toString y

/-- Embedding of `getCacheKey(seriesIds, startYear, endYear)` in blsClient.ts. -/
def getCacheKey (ids : List String) (sy ey : Option Int) : String :=
  String.intercalate "," (sortStrings ids) ++ "_" ++ yearKeyPart sy ++ "_" ++ yearKeyPart ey

/-- Embedding of `isCacheValid(entry, ttl)`: `Date.now() - entry.timestamp < ttl`. -/
def isCacheValid (entry : CacheEntry) (ttl : Nat) (now : Nat) : Bool :=
  now - entry.timestamp < ttl

/-- The retry loop body of `fetchWithRetry`, with the remaining iteration
count made explicit (`remaining = maxRetries - attempt`).  Each iteration
issues one `fetch` (recorded in `attempts`/`requests`); a thrown transport
error updates `lastError` and sleeps; a 429 response sleeps without touching
`lastError`; any other response is returned.  When the loop ends, the
`TransientFailure` error is thrown with the attempt count and last cause. -/
def fetchWithRetryGo (oracle : Nat → FetchOutcome) (body : RequestBody)
    (maxRetries retryDelay : Nat) :
    Nat → Nat → Option String → NetState → RetryResult × NetState
  | 0, _, lastError, st =>
      let cause := lastError.getD "Unknown error"
      (.transientFailure
        ("BLS API request failed after " ++ toString maxRetries ++ " attempts: " ++ cause), st)
  | remaining + 1, attempt, lastError, st =>
      let st1 : NetState :=
        { st with attempts := st.attempts + 1, requests := st.requests ++ [body] }
      match oracle st.attempts with
      | .networkError msg =>
          fetchWithRetryGo oracle body maxRetries retryDelay remaining (attempt + 1) (some msg)
            { st1 with sleeps := st1.sleeps ++ [retryDelay * 2 ^ attempt] }
      | .success resp =>
          if resp.status = 429 then
            fetchWithRetryGo oracle body maxRetries retryDelay remaining (attempt + 1) lastError
              { st1 with sleeps := st1.sleeps ++ [retryDelay * 2 ^ attempt] }
          else
            (.ok resp, st1)

/-- Embedding of `fetchWithRetry(url, options, config)` in blsClient.ts.  One invocation is
one logical outbound exchange (`exchanges` is incremented once). -/
def fetchWithRetry (oracle : Nat → FetchOutcome) (body : RequestBody)
    (cfg : ResolvedConfig) (st : NetState) : RetryResult × NetState :=
  fetchWithRetryGo oracle body cfg.maxRetries cfg.retryDelay cfg.maxRetries 0 none
    { st with exchanges := st.exchanges + 1 }

/-- The request body built by `fetchSeriesData` (after `getCacheKey` has
already sorted the `seriesIds` array in place, so the body carries the sorted
ids).  `startyear`/`endyear` are included whenever the year is defined
(`!== undefined`), `registrationkey` only for a truthy (non-empty) key. -/
def buildRequestBody (sortedIds : List String) (sy ey : Option Int)
    (cfg : ResolvedConfig) : RequestBody :=
  { seriesid := sortedIds
    startyear := sy.map (fun y => toString y)
    endyear := ey.map (fun y => toString y)
    registrationkey := if cfg.apiKey = "" then none else some cfg.apiKey }

/-- The network half of `fetchSeriesData`: build the body, run
`fetchWithRetry`, and interpret the outcome — non-2xx status throws the
HTTP error, an envelope whose `status` is not `REQUEST_SUCCEEDED` throws the
provider error with the joined messages (empty join falls back to
`Unknown BLS API error`), otherwise the series list (missing `Results`
treated as empty). -/
def fetchSeriesExchange (ids : List String) (sy ey : Option Int)
    (cfg : ResolvedConfig) (oracle : Nat → FetchOutcome) (net : NetState) :
    Except BLSError (List BLSSeries) × NetState :=
  let body := buildRequestBody (sortStrings ids) sy ey cfg
  match fetchWithRetry oracle body cfg net with
  | (.transientFailure msg, net1) => (.error (.transientFailure msg), net1)
  | (.ok resp, net1) =>
    if resp.status < 200 ∨ 300 ≤ resp.status then
      (.error (.providerHttpError resp.status resp.statusText), net1)
    else if resp.body.status ≠ "REQUEST_SUCCEEDED" then
      let joined := String.intercalate "; " resp.body.message
      let m := if joined = "" then "Unknown BLS API error" else joined
      (.error (.providerApiError ("BLS API error: " ++ m)), net1)
    else
      (.ok (resp.body.results.getD []), net1)

/-- The cache consultation at the top of `fetchSeriesData`: a fresh entry's
data when caching is enabled and the entry's age is below the TTL. -/
def cacheLookup (cfg : ResolvedConfig) (cache : Cache) (key : String) (now : Nat) :
    Option (List BLSSeries) :=
  if cfg.enableCache then
    match cacheGet cache key with
    | some entry => if isCacheValid entry cfg.cacheTTL now then some entry.data else none
    | none => none
  else none

/-- Result record of `fetchSeriesData`: the value or error, the cache and
network state after the call, and the post-call value of the caller's
`seriesIds` array (sorted in place by `getCacheKey`). -/
structure FetchOut where
  result : Except BLSError (List BLSSeries)
  cache : Cache
  net : NetState
  idsAfter : List String
deriving DecidableEq

/-- Embedding of `fetchSeriesData(seriesIds, startYear, endYear, config)` in blsClient.ts:
resolve config, compute the key (sorting the array in place), return a fresh
cached entry if any, otherwise perform the exchange and, on success with
caching enabled, store the result under the key with the current time. -/
def fetchSeriesData (ids : List String) (sy ey : Option Int) (o : BLSClientConfig)
    (env : Env) (oracle : Nat → FetchOutcome) (now : Nat)
    (cache : Cache) (net : NetState) : FetchOut :=
  let fullConfig := getConfig env o
  let cacheKey := getCacheKey ids sy ey
  match cacheLookup fullConfig cache cacheKey now with
  | some d => ⟨.ok d, cache, net, sortStrings ids⟩
  | none =>
    match fetchSeriesExchange ids sy ey fullConfig oracle net with
    | (.ok series, net1) =>
        let cache1 :=
          if fullConfig.enableCache then cacheSet cache cacheKey ⟨series, now⟩ else cache
        ⟨.ok series, cache1, net1, sortStrings ids⟩
    | (.error e, net1) => ⟨.error e, cache, net1, sortStrings ids⟩

/-- Result record of `getSeries`. -/
structure SeriesOut where
  result : Except BLSError (Option BLSSeries)
  cache : Cache
  net : NetState
  idsAfter : List String
deriving DecidableEq

/-- Embedding of `getSeries(seriesId, startYear, endYear, config)` in blsClient.ts:
a one-element `fetchSeriesData` request, then
`series.find(s => s.seriesID === seriesId) || null`. -/
def getSeries (seriesId : String) (sy ey : Option Int) (o : BLSClientConfig)
    (env : Env) (oracle : Nat → FetchOutcome) (now : Nat)
    (cache : Cache) (net : NetState) : SeriesOut :=
  let f := fetchSeriesData [seriesId] sy ey o env oracle now cache net
  ⟨f.result.map (fun l => l.find? (fun s => s.seriesID == seriesId)), f.cache, f.net, f.idsAfter⟩

/-- The credential-dependent batch ceiling of `getMultipleSeries`:
`fullConfig.apiKey ? 50 : 25`. -/
def maxSeriesPerRequest (cfg : ResolvedConfig) : Nat :=
  if cfg.apiKey = "" then 25 else 50

/-- The body of the chunking loop of `getMultipleSeries`
(`for (i = 0; i < len; i += max) slice(i, i + max)`), with an explicit
structural fuel so the recursion is kernel-computable.  A positive `n`
removes at least one element per step, so fuel `ids.length` never runs out;
the `fuel = 0` and `n = 0` fallbacks are unreachable in the source, where
`n` is 25 or 50 (with `n = 0` the source loop would not terminate). -/
def splitBatchesGo (n : Nat) : Nat → List String → List (List String)
  | _, [] => []
  | 0, ids => [ids]
  | fuel + 1, ids =>
      if n = 0 then [ids]
      else ids.take n :: splitBatchesGo n fuel (ids.drop n)

/-- The chunking of `getMultipleSeries`: split `ids` into successive slices
of length `n`. -/
def splitBatches (ids : List String) (n : Nat) : List (List String) :=
  splitBatchesGo n ids.length ids

/-- The per-batch fetch loop of `getMultipleSeries`: one `fetchSeriesData`
per batch, in order, results concatenated; an error aborts the loop and
propagates (cache updates of earlier batches persist). -/
def runBatches (sy ey : Option Int) (o : BLSClientConfig) (env : Env)
    (oracle : Nat → FetchOutcome) (now : Nat) :
    List (List String) → Cache → NetState →
    Except BLSError (List BLSSeries) × Cache × NetState
  | [], cache, net => (.ok [], cache, net)
  | batch :: rest, cache, net =>
    let f := fetchSeriesData batch sy ey o env oracle now cache net
    match f.result with
    | .error e => (.error e, f.cache, f.net)
    | .ok rs =>
      match runBatches sy ey o env oracle now rest f.cache f.net with
      | (.ok more, c2, n2) => (.ok (rs ++ more), c2, n2)
      | (.error e, c2, n2) => (.error e, c2, n2)

/-- Result record of `getMultipleSeries`. -/
structure MultiOut where
  result : Except BLSError (List BLSSeries)
  cache : Cache
  net : NetState
  idsAfter : List String
deriving DecidableEq

/-- Embedding of `getMultipleSeries(seriesIds, startYear, endYear, config)` in
blsClient.ts: a list within the ceiling goes through a single
`fetchSeriesData` (which sorts the caller's array in place); a longer list
is chunked, each chunk being a fresh `slice` copy, so the caller's array is
left untouched in that path. -/
def getMultipleSeries (ids : List String) (sy ey : Option Int) (o : BLSClientConfig)
    (env : Env) (oracle : Nat → FetchOutcome) (now : Nat)
    (cache : Cache) (net : NetState) : MultiOut :=
  let fullConfig := getConfig env o
  let maxPer := maxSeriesPerRequest fullConfig
  if ids.length ≤ maxPer then
    let f := fetchSeriesData ids sy ey o env oracle now cache net
    ⟨f.result, f.cache, f.net, f.idsAfter⟩
  else
    match runBatches sy ey o env oracle now (splitBatches ids maxPer) cache net with
    | (r, c, n) => ⟨r, c, n, ids⟩

/-- Embedding of JavaScript's `parseInt(s, 10)`: skip leading whitespace, optional sign,
then the longest digit prefix; `none` models `NaN`. -/
def jsParseInt (s : String) : Option Int :=
  let cs := s.toList.dropWhile (fun c => c == ' ' || c == '\t' || c == '\n' || c == '\r')
  match cs with
  | '-' :: rest =>
    let ds := rest.takeWhile Char.isDigit
    if ds.isEmpty then none
    else some (-(ds.foldl (fun a c => a * 10 + (c.toNat - 48)) 0 : Nat))
  | '+' :: rest =>
    let ds := rest.takeWhile Char.isDigit
    if ds.isEmpty then none
    else some (ds.foldl (fun a c => a * 10 + (c.toNat - 48)) 0 : Nat)
  | rest =>
    let ds := rest.takeWhile Char.isDigit
    if ds.isEmpty then none
    else some (ds.foldl (fun a c => a * 10 + (c.toNat - 48)) 0 : Nat)

/-- JS `x || d` on an optional environment string: absent and `""` both fall
back to the default. -/
def orDefaultStr (o : Option String) (d : String) : String :=
  match o with
  | some s => if s = "" then d else s
  | none => d

/-- The `seriesIds` block of `BLSConfig` in blsConfig.ts. -/
structure BLSSeriesIdsConfig where
  cpi : String
  unemployment : String
  wages : String
deriving DecidableEq

/-- The `cache` block of `BLSConfig` in blsConfig.ts (`ttlMs = none` models a
`NaN` from `parseInt`). -/
structure BLSCacheConfig where
  enabled : Bool
  ttlMs : Option Int
deriving DecidableEq

/-- The `retry` block of `BLSConfig` in blsConfig.ts. -/
structure BLSRetryConfig where
  maxAttempts : Option Int
  baseDelayMs : Option Int
deriving DecidableEq

/-- Embedding of `BLSConfig` in blsConfig.ts. -/
structure BLSConfig where
  enabled : Bool
  seriesIds : BLSSeriesIdsConfig
  cache : BLSCacheConfig
  retry : BLSRetryConfig
deriving DecidableEq

/-- Embedding of `getBLSConfig()` in blsConfig.ts: every field is environment-sourced with
a default.  Note this accessor is a separate module; the client's
`getConfig` in blsClient.ts does not consume its `cache`/`retry` values. -/
def getBLSConfig (env : Env) : BLSConfig :=
  { enabled := env.BLS_ENABLED != some "false"
    seriesIds :=
      { cpi := orDefaultStr env.BLS_SERIES_CPI "CUSR0000SA0"
        unemployment := orDefaultStr env.BLS_SERIES_UNEMPLOYMENT "LNS14000000"
        wages := orDefaultStr env.BLS_SERIES_WAGES "CES0500000003" }
    cache :=
      { enabled := env.BLS_CACHE_ENABLED != some "false"
        ttlMs := jsParseInt (orDefaultStr env.BLS_CACHE_TTL_MS "3600000") }
    retry :=
      { maxAttempts := jsParseInt (orDefaultStr env.BLS_RETRY_MAX_ATTEMPTS "3")
        baseDelayMs := jsParseInt (orDefaultStr env.BLS_RETRY_BASE_DELAY_MS "1000") } }

/-- The optional per-role series ids of a mapping
(`CareerBlsMapping.seriesIds` in careerBlsMappings.ts). -/
structure SeriesIdsMapping where
  cpi : Option String := none
  unemployment : Option String := none
  wages : Option String := none
deriving DecidableEq

/-- Embedding of `CareerBlsMapping` in careerBlsMappings.ts. -/
structure CareerBlsMapping where
  careerId : String
  seriesIds : SeriesIdsMapping
deriving DecidableEq

/-- Embedding of `CAREER_BLS_MAPPINGS` in careerBlsMappings.ts. -/
def CAREER_BLS_MAPPINGS : List CareerBlsMapping :=
  [⟨"rn-001", ⟨some "CUSR0000SA0", some "LNS14000000", some "CES0500000003"⟩⟩,
   ⟨"ma-001", ⟨some "CUSR0000SA0", some "LNS14000000", some "CES0500000003"⟩⟩,
   ⟨"elec-001", ⟨some "CUSR0000SA0", some "LNS14000000", some "CES0500000003"⟩⟩]

/-- The lookup of `getBlsMappingForCareer`, with the table it closes over
made an explicit parameter. -/
def getBlsMappingForCareerIn (mappings : List CareerBlsMapping) (careerId : String) :
    Option CareerBlsMapping :=
  mappings.find? (fun m => m.careerId == careerId)

/-- Embedding of `getBlsMappingForCareer(careerId)` in careerBlsMappings.ts. -/
def getBlsMappingForCareer (careerId : String) : Option CareerBlsMapping :=
  getBlsMappingForCareerIn CAREER_BLS_MAPPINGS careerId

/-- Embedding of `JobEconomicIndicator` in careerEconomicService.ts (the reshaped data
points keep the provider fields, so `BLSSeriesData` is reused). -/
structure JobEconomicIndicator where
  seriesId : String
  name : String
  data : List BLSSeriesData
  lastUpdated : String
deriving DecidableEq

/-- The `[cpi, unemployment, wages].filter(Boolean)` step of
`getJobSpecificEconomicData`: drops absent entries and (falsy) empty
strings. -/
def wantedSeriesOf (m : CareerBlsMapping) : List String :=
  [m.seriesIds.cpi, m.seriesIds.unemployment, m.seriesIds.wages].filterMap
    (fun o => match o with
      | some s => if s = "" then none else some s
      | none => none)

/-- Embedding of `getSeriesFriendlyName(seriesId, mapping)` in careerEconomicService.ts. -/
def getSeriesFriendlyName (seriesId : String) (m : CareerBlsMapping) : String :=
  if m.seriesIds.cpi = some seriesId then "Consumer Price Index (CPI)"
  else if m.seriesIds.unemployment = some seriesId then "Unemployment Rate"
  else if m.seriesIds.wages = some seriesId then "Average Hourly Earnings"
  else seriesId

/-- Result record of `getJobSpecificEconomicData`. -/
structure JobEconOut where
  result : Except BLSError (List JobEconomicIndicator)
  cache : Cache
  net : NetState
deriving DecidableEq

/-- Embedding of `getJobSpecificEconomicData(careerId)` in careerEconomicService.ts, with
the mapping table it closes over made an explicit parameter.
`currentYear` models `new Date().getFullYear()` and `nowISO` models
`new Date().toISOString()`. -/
def getJobSpecificEconomicDataIn (mappings : List CareerBlsMapping) (careerId : String)
    (env : Env) (oracle : Nat → FetchOutcome) (now : Nat) (currentYear : Int)
    (nowISO : String) (cache : Cache) (net : NetState) : JobEconOut :=
  let config := getBLSConfig env
  if !config.enabled then ⟨.ok [], cache, net⟩
  else
    match getBlsMappingForCareerIn mappings careerId with
    | none => ⟨.ok [], cache, net⟩
    | some mapping =>
      let wantedSeries := wantedSeriesOf mapping
      if wantedSeries.isEmpty then ⟨.ok [], cache, net⟩
      else
        let m := getMultipleSeries wantedSeries (some (currentYear - 5)) (some currentYear)
          {} env oracle now cache net
        ⟨m.result.map (fun l => l.map (fun s =>
            { seriesId := s.seriesID
              name := getSeriesFriendlyName s.seriesID mapping
              data := s.data
              lastUpdated := nowISO })), m.cache, m.net⟩

/-- Embedding of `getJobSpecificEconomicData` applied to the static table of
careerBlsMappings.ts. -/
def getJobSpecificEconomicData (careerId : String) (env : Env)
    (oracle : Nat → FetchOutcome) (now : Nat) (currentYear : Int)
    (nowISO : String) (cache : Cache) (net : NetState) : JobEconOut :=
  getJobSpecificEconomicDataIn CAREER_BLS_MAPPINGS careerId env oracle now currentYear
    nowISO cache net

/-! ### Helper lemmas about the embedding -/

/-- An attempt outcome is retryable when it is a transport failure or a 429
response (the two cases the retry loop does not return to the caller). -/
def retryableB (o : FetchOutcome) : Bool :=
  match o with
  | .networkError _ => true
  | .success r => r.status == 429

/-- The "last cause" the retry loop accumulates: the message of the most
recent transport failure among the consumed attempts (429 responses leave it
unchanged), starting from `acc`. -/
def lastCauseAux (oracle : Nat → FetchOutcome) : Nat → Nat → Option String → Option String
  | _, 0, acc => acc
  | start, n + 1, acc =>
      lastCauseAux oracle (start + 1) n
        (match oracle start with
         | .networkError m => some m
         | .success _ => acc)

theorem fetchWithRetryGo_exchanges (oracle : Nat → FetchOutcome) (body : RequestBody)
    (mR rD : Nat) :
    ∀ (remaining attempt : Nat) (lastError : Option String) (st : NetState),
      ((fetchWithRetryGo oracle body mR rD remaining attempt lastError st).2).exchanges
        = st.exchanges := by
  intro remaining
  induction remaining with
  | zero => intro attempt lastError st; rfl
  | succ k ih =>
    intro attempt lastError st
    cases h : oracle st.attempts with
    | networkError msg =>
      simp only [fetchWithRetryGo, h]
      exact ih _ _ _
    | success resp =>
      by_cases h429 : resp.status = 429
      · simp only [fetchWithRetryGo, h, if_pos h429]
        exact ih _ _ _
      · simp only [fetchWithRetryGo, h, if_neg h429]

theorem fetchWithRetryGo_requests (oracle : Nat → FetchOutcome) (body : RequestBody)
    (mR rD : Nat) :
    ∀ (remaining attempt : Nat) (lastError : Option String) (st : NetState)
      (r : RequestBody),
      r ∈ ((fetchWithRetryGo oracle body mR rD remaining attempt lastError st).2).requests →
      r ∈ st.requests ∨ r = body := by
  intro remaining
  induction remaining with
  | zero => intro attempt lastError st r hr; exact Or.inl hr
  | succ k ih =>
    intro attempt lastError st r hr
    cases h : oracle st.attempts with
    | networkError msg =>
      simp only [fetchWithRetryGo, h] at hr
      rcases ih _ _ _ _ hr with hmem | heq
      · simp only [List.mem_append, List.mem_singleton] at hmem
        rcases hmem with hmem | rfl
        · exact Or.inl hmem
        · exact Or.inr rfl
      · exact Or.inr heq
    | success resp =>
      by_cases h429 : resp.status = 429
      · simp only [fetchWithRetryGo, h, if_pos h429] at hr
        rcases ih _ _ _ _ hr with hmem | heq
        · simp only [List.mem_append, List.mem_singleton] at hmem
          rcases hmem with hmem | rfl
          · exact Or.inl hmem
          · exact Or.inr rfl
        · exact Or.inr heq
      · simp only [fetchWithRetryGo, h, if_neg h429] at hr
        simp only [List.mem_append, List.mem_singleton] at hr
        rcases hr with hmem | rfl
        · exact Or.inl hmem
        · exact Or.inr rfl

theorem fetchWithRetryGo_exhaust (oracle : Nat → FetchOutcome) (body : RequestBody)
    (mR rD : Nat) :
    ∀ (remaining attempt : Nat) (lastError : Option String) (st : NetState),
      (∀ i, i < remaining → retryableB (oracle (st.attempts + i)) = true) →
      fetchWithRetryGo oracle body mR rD remaining attempt lastError st =
        (.transientFailure ("BLS API request failed after " ++ toString mR ++ " attempts: "
            ++ (lastCauseAux oracle st.attempts remaining lastError).getD "Unknown error"),
         { st with
           attempts := st.attempts + remaining
           requests := st.requests ++ List.replicate remaining body
           sleeps := st.sleeps ++ (List.range remaining).map (fun i => rD * 2 ^ (attempt + i)) }) := by
  intro remaining
  induction remaining with
  | zero =>
    intro attempt lastError st _
    simp only [fetchWithRetryGo, lastCauseAux, List.replicate, List.range_zero, List.map_nil,
      List.append_nil, Nat.add_zero]
  | succ k ih =>
    intro attempt lastError st h
    have h0 : retryableB (oracle st.attempts) = true := by
      have := h 0 (Nat.succ_pos k)
      simpa using this
    have hshift : ∀ i, i < k → retryableB (oracle (st.attempts + 1 + i)) = true := by
      intro i hi
      have := h (i + 1) (Nat.succ_lt_succ hi)
      have harith : st.attempts + (i + 1) = st.attempts + 1 + i := by omega
      rwa [harith] at this
    have hsleeps : ∀ (s : List Nat),
        (s ++ [rD * 2 ^ attempt]) ++ (List.range k).map (fun i => rD * 2 ^ (attempt + 1 + i))
          = s ++ (List.range (k + 1)).map (fun i => rD * 2 ^ (attempt + i)) := by
      intro s
      rw [List.range_succ_eq_map, List.map_cons, List.map_map, List.append_assoc,
        List.singleton_append]
      have h1 : attempt + 0 = attempt := Nat.add_zero attempt
      rw [h1]
      have h2 : ((fun i => rD * 2 ^ (attempt + i)) ∘ fun i => i + 1)
          = fun i => rD * 2 ^ (attempt + 1 + i) := by
        funext i
        simp only [Function.comp_apply]
        have h3 : attempt + (i + 1) = attempt + 1 + i := by omega
        rw [h3]
      rw [h2]
    have hreq : ∀ (q : List RequestBody),
        (q ++ [body]) ++ List.replicate k body = q ++ List.replicate (k + 1) body := by
      intro q
      rw [List.append_assoc, List.singleton_append, ← List.replicate_succ]
    cases hor : oracle st.attempts with
    | networkError msg =>
      simp only [fetchWithRetryGo, hor]
      rw [ih (attempt + 1) (some msg)
        ⟨st.exchanges, st.attempts + 1, st.sleeps ++ [rD * 2 ^ attempt], st.requests ++ [body]⟩
        (by simpa using hshift)]
      have e1 : lastCauseAux oracle (st.attempts + 1) k (some msg)
          = lastCauseAux oracle st.attempts (k + 1) lastError := by
        simp [lastCauseAux, hor]
      have e2 : st.attempts + 1 + k = st.attempts + (k + 1) := by omega
      dsimp only
      rw [e1, e2, hsleeps st.sleeps, hreq st.requests]
    | success resp =>
      have h429 : resp.status = 429 := by
        rw [hor] at h0
        simpa [retryableB] using h0
      simp only [fetchWithRetryGo, hor, if_pos h429]
      rw [ih (attempt + 1) lastError
        ⟨st.exchanges, st.attempts + 1, st.sleeps ++ [rD * 2 ^ attempt], st.requests ++ [body]⟩
        (by simpa using hshift)]
      have e1 : lastCauseAux oracle (st.attempts + 1) k lastError
          = lastCauseAux oracle st.attempts (k + 1) lastError := by
        simp [lastCauseAux, hor]
      have e2 : st.attempts + 1 + k = st.attempts + (k + 1) := by omega
      dsimp only
      rw [e1, e2, hsleeps st.sleeps, hreq st.requests]

theorem cacheGet_set (c : Cache) (k : String) (e : CacheEntry) :
    cacheGet (cacheSet c k e) k = some e := by
  unfold cacheGet cacheSet
  simp [List.find?]

theorem cacheGet_remove (c : Cache) (k : String) :
    cacheGet (cacheRemove c k) k = none := by
  unfold cacheGet cacheRemove
  rw [List.find?_eq_none.mpr]
  · rfl
  · intro p hp
    have := (List.mem_filter.mp hp).2
    simpa [bne] using this

theorem fetchWithRetry_exchanges (oracle : Nat → FetchOutcome) (body : RequestBody)
    (cfg : ResolvedConfig) (st : NetState) :
    ((fetchWithRetry oracle body cfg st).2).exchanges = st.exchanges + 1 := by
  unfold fetchWithRetry
  rw [fetchWithRetryGo_exchanges]

theorem fetchWithRetry_requests (oracle : Nat → FetchOutcome) (body : RequestBody)
    (cfg : ResolvedConfig) (st : NetState) (r : RequestBody)
    (hr : r ∈ ((fetchWithRetry oracle body cfg st).2).requests) :
    r ∈ st.requests ∨ r = body := by
  unfold fetchWithRetry at hr
  have := fetchWithRetryGo_requests oracle body cfg.maxRetries cfg.retryDelay cfg.maxRetries 0 none
    { st with exchanges := st.exchanges + 1 } r hr
  simpa using this

theorem fetchSeriesExchange_net (ids : List String) (sy ey : Option Int)
    (cfg : ResolvedConfig) (oracle : Nat → FetchOutcome) (net : NetState) :
    (fetchSeriesExchange ids sy ey cfg oracle net).2
      = (fetchWithRetry oracle (buildRequestBody (sortStrings ids) sy ey cfg) cfg net).2 := by
  unfold fetchSeriesExchange
  rcases hr : fetchWithRetry oracle (buildRequestBody (sortStrings ids) sy ey cfg) cfg net
    with ⟨r, net1⟩
  cases r with
  | ok resp =>
    by_cases hst : resp.status < 200 ∨ 300 ≤ resp.status
    · simp [hr, hst]
    · by_cases henv : resp.body.status ≠ "REQUEST_SUCCEEDED"
      · simp [hr, hst, henv]
      · simp [hr, hst, henv]
  | transientFailure msg => simp [hr]

theorem fetchSeriesExchange_exchanges (ids : List String) (sy ey : Option Int)
    (cfg : ResolvedConfig) (oracle : Nat → FetchOutcome) (net : NetState) :
    ((fetchSeriesExchange ids sy ey cfg oracle net).2).exchanges = net.exchanges + 1 := by
  rw [fetchSeriesExchange_net, fetchWithRetry_exchanges]

theorem fetchSeriesExchange_requests (ids : List String) (sy ey : Option Int)
    (cfg : ResolvedConfig) (oracle : Nat → FetchOutcome) (net : NetState)
    (r : RequestBody)
    (hr : r ∈ ((fetchSeriesExchange ids sy ey cfg oracle net).2).requests) :
    r ∈ net.requests ∨ r = buildRequestBody (sortStrings ids) sy ey cfg := by
  rw [fetchSeriesExchange_net] at hr
  exact fetchWithRetry_requests _ _ _ _ _ hr

theorem fetchSeriesData_hit (ids : List String) (sy ey : Option Int) (o : BLSClientConfig)
    (env : Env) (oracle : Nat → FetchOutcome) (now : Nat) (cache : Cache) (net : NetState)
    (d : List BLSSeries)
    (h : cacheLookup (getConfig env o) cache (getCacheKey ids sy ey) now = some d) :
    fetchSeriesData ids sy ey o env oracle now cache net
      = ⟨.ok d, cache, net, sortStrings ids⟩ := by
  unfold fetchSeriesData
  simp only [h]

theorem fetchSeriesData_miss (ids : List String) (sy ey : Option Int) (o : BLSClientConfig)
    (env : Env) (oracle : Nat → FetchOutcome) (now : Nat) (cache : Cache) (net : NetState)
    (h : cacheLookup (getConfig env o) cache (getCacheKey ids sy ey) now = none) :
    fetchSeriesData ids sy ey o env oracle now cache net
      = match fetchSeriesExchange ids sy ey (getConfig env o) oracle net with
        | (.ok series, net1) =>
            ⟨.ok series,
             if (getConfig env o).enableCache then
               cacheSet cache (getCacheKey ids sy ey) ⟨series, now⟩
             else cache,
             net1, sortStrings ids⟩
        | (.error e, net1) => ⟨.error e, cache, net1, sortStrings ids⟩ := by
  unfold fetchSeriesData
  simp only [h]

theorem fetchSeriesData_result_of_miss (ids : List String) (sy ey : Option Int)
    (o : BLSClientConfig) (env : Env) (oracle : Nat → FetchOutcome) (now : Nat)
    (cache : Cache) (net : NetState)
    (h : cacheLookup (getConfig env o) cache (getCacheKey ids sy ey) now = none) :
    (fetchSeriesData ids sy ey o env oracle now cache net).result
      = (fetchSeriesExchange ids sy ey (getConfig env o) oracle net).1 := by
  rw [fetchSeriesData_miss ids sy ey o env oracle now cache net h]
  rcases hex : fetchSeriesExchange ids sy ey (getConfig env o) oracle net with ⟨r, net1⟩
  cases r with
  | ok series => rfl
  | error e => rfl

theorem fetchSeriesData_net_of_miss (ids : List String) (sy ey : Option Int)
    (o : BLSClientConfig) (env : Env) (oracle : Nat → FetchOutcome) (now : Nat)
    (cache : Cache) (net : NetState)
    (h : cacheLookup (getConfig env o) cache (getCacheKey ids sy ey) now = none) :
    (fetchSeriesData ids sy ey o env oracle now cache net).net
      = (fetchSeriesExchange ids sy ey (getConfig env o) oracle net).2 := by
  rw [fetchSeriesData_miss ids sy ey o env oracle now cache net h]
  rcases hex : fetchSeriesExchange ids sy ey (getConfig env o) oracle net with ⟨r, net1⟩
  cases r with
  | ok series => rfl
  | error e => rfl

theorem fetchSeriesData_cache_of_success (ids : List String) (sy ey : Option Int)
    (o : BLSClientConfig) (env : Env) (oracle : Nat → FetchOutcome) (now : Nat)
    (cache : Cache) (net : NetState) (data : List BLSSeries)
    (hmiss : cacheLookup (getConfig env o) cache (getCacheKey ids sy ey) now = none)
    (hok : (fetchSeriesData ids sy ey o env oracle now cache net).result = .ok data) :
    (fetchSeriesData ids sy ey o env oracle now cache net).cache
      = if (getConfig env o).enableCache then
          cacheSet cache (getCacheKey ids sy ey) ⟨data, now⟩
        else cache := by
  rw [fetchSeriesData_miss ids sy ey o env oracle now cache net hmiss] at hok ⊢
  rcases hex : fetchSeriesExchange ids sy ey (getConfig env o) oracle net with ⟨r, net1⟩
  rw [hex] at hok
  cases r with
  | ok series =>
    have hsd : series = data := by simpa using hok
    subst hsd
    rfl
  | error e => simp at hok

theorem fetchSeriesData_idsAfter (ids : List String) (sy ey : Option Int)
    (o : BLSClientConfig) (env : Env) (oracle : Nat → FetchOutcome) (now : Nat)
    (cache : Cache) (net : NetState) :
    (fetchSeriesData ids sy ey o env oracle now cache net).idsAfter = sortStrings ids := by
  cases h : cacheLookup (getConfig env o) cache (getCacheKey ids sy ey) now with
  | some d => rw [fetchSeriesData_hit ids sy ey o env oracle now cache net d h]
  | none =>
    rw [fetchSeriesData_miss ids sy ey o env oracle now cache net h]
    rcases hex : fetchSeriesExchange ids sy ey (getConfig env o) oracle net with ⟨r, net1⟩
    cases r with
    | ok series => rfl
    | error e => rfl

theorem fetchSeriesData_requests (ids : List String) (sy ey : Option Int)
    (o : BLSClientConfig) (env : Env) (oracle : Nat → FetchOutcome) (now : Nat)
    (cache : Cache) (net : NetState) (r : RequestBody)
    (hr : r ∈ (fetchSeriesData ids sy ey o env oracle now cache net).net.requests) :
    r ∈ net.requests ∨ r.seriesid = sortStrings ids := by
  cases h : cacheLookup (getConfig env o) cache (getCacheKey ids sy ey) now with
  | some d =>
    rw [fetchSeriesData_hit ids sy ey o env oracle now cache net d h] at hr
    exact Or.inl hr
  | none =>
    rw [fetchSeriesData_net_of_miss ids sy ey o env oracle now cache net h] at hr
    rcases fetchSeriesExchange_requests ids sy ey (getConfig env o) oracle net r hr with hm | he
    · exact Or.inl hm
    · right; subst he; rfl

theorem getMultipleSeries_single (ids : List String) (sy ey : Option Int)
    (o : BLSClientConfig) (env : Env) (oracle : Nat → FetchOutcome) (now : Nat)
    (cache : Cache) (net : NetState)
    (hlen : ids.length ≤ maxSeriesPerRequest (getConfig env o)) :
    getMultipleSeries ids sy ey o env oracle now cache net
      = ⟨(fetchSeriesData ids sy ey o env oracle now cache net).result,
         (fetchSeriesData ids sy ey o env oracle now cache net).cache,
         (fetchSeriesData ids sy ey o env oracle now cache net).net,
         (fetchSeriesData ids sy ey o env oracle now cache net).idsAfter⟩ := by
  unfold getMultipleSeries
  simp only [if_pos hlen]

theorem splitBatchesGo_flatten (n : Nat) (hn : 0 < n) :
    ∀ (fuel : Nat) (ids : List String), ids.length ≤ fuel →
      (splitBatchesGo n fuel ids).flatten = ids := by
  intro fuel
  induction fuel with
  | zero =>
    intro ids h
    have hid : ids = [] := List.length_eq_zero.mp (Nat.le_zero.mp h)
    subst hid
    rfl
  | succ k ih =>
    intro ids h
    cases ids with
    | nil => rfl
    | cons a t =>
      have hn0 : ¬ n = 0 := Nat.pos_iff_ne_zero.mp hn
      simp only [splitBatchesGo, if_neg hn0, List.flatten_cons]
      have hlen : ((a :: t).drop n).length ≤ k := by
        simp only [List.length_drop, List.length_cons]
        simp only [List.length_cons] at h
        omega
      rw [ih ((a :: t).drop n) hlen]
      exact List.take_append_drop n (a :: t)

theorem splitBatches_flatten (ids : List String) (n : Nat) (hn : 0 < n) :
    (splitBatches ids n).flatten = ids :=
  splitBatchesGo_flatten n hn ids.length ids le_rfl

theorem splitBatchesGo_sizes (n : Nat) (hn : 0 < n) :
    ∀ (fuel : Nat) (ids : List String), ids.length ≤ fuel →
      ∀ b ∈ splitBatchesGo n fuel ids, b.length ≤ n := by
  intro fuel
  induction fuel with
  | zero =>
    intro ids h b hb
    have hid : ids = [] := List.length_eq_zero.mp (Nat.le_zero.mp h)
    subst hid
    simp [splitBatchesGo] at hb
  | succ k ih =>
    intro ids h b hb
    cases ids with
    | nil => simp [splitBatchesGo] at hb
    | cons a t =>
      have hn0 : ¬ n = 0 := Nat.pos_iff_ne_zero.mp hn
      simp only [splitBatchesGo, if_neg hn0] at hb
      rcases List.mem_cons.mp hb with rfl | hb2
      · simp only [List.length_take]
        exact Nat.min_le_left n (a :: t).length
      · refine ih ((a :: t).drop n) ?_ b hb2
        simp only [List.length_drop, List.length_cons]
        simp only [List.length_cons] at h
        omega

theorem charListLe_total : ∀ as bs, charListLe as bs = true ∨ charListLe bs as = true := by
  intro as
  induction as with
  | nil => intro bs; exact Or.inl rfl
  | cons a at1 ih =>
    intro bs
    cases bs with
    | nil => exact Or.inr rfl
    | cons b bt =>
      by_cases h1 : a.toNat < b.toNat
      · left; simp [charListLe, h1]
      · by_cases h2 : b.toNat < a.toNat
        · right; simp [charListLe, h2]
        · rcases ih bt with h | h
          · left; simp [charListLe, h1, h2, h]
          · right; simp [charListLe, h1, h2, h]

theorem charListLe_trans : ∀ as bs cs, charListLe as bs = true → charListLe bs cs = true →
    charListLe as cs = true := by
  intro as
  induction as with
  | nil => intro bs cs _ _; rfl
  | cons a at1 ih =>
    intro bs cs h1 h2
    cases bs with
    | nil => simp [charListLe] at h1
    | cons b bt =>
      cases cs with
      | nil => simp [charListLe] at h2
      | cons c ct =>
        simp only [charListLe] at h1 h2 ⊢
        by_cases hab : a.toNat < b.toNat
        · by_cases hbc : b.toNat < c.toNat
          · have hac : a.toNat < c.toNat := by omega
            simp [hac]
          · by_cases hcb : c.toNat < b.toNat
            · simp [hbc, hcb] at h2
            · have hac : a.toNat < c.toNat := by omega
              simp [hac]
        · by_cases hba : b.toNat < a.toNat
          · simp [hab, hba] at h1
          · by_cases hbc : b.toNat < c.toNat
            · have hac : a.toNat < c.toNat := by omega
              simp [hac]
            · by_cases hcb : c.toNat < b.toNat
              · simp [hbc, hcb] at h2
              · have hac1 : ¬ a.toNat < c.toNat := by omega
                have hac2 : ¬ c.toNat < a.toNat := by omega
                simp only [if_neg hac1, if_neg hac2]
                exact ih bt ct (by simpa [hab, hba] using h1) (by simpa [hbc, hcb] using h2)

theorem charListLe_antisymm : ∀ as bs, charListLe as bs = true → charListLe bs as = true →
    as = bs := by
  intro as
  induction as with
  | nil =>
    intro bs h1 h2
    cases bs with
    | nil => rfl
    | cons b bt => simp [charListLe] at h2
  | cons a at1 ih =>
    intro bs h1 h2
    cases bs with
    | nil => simp [charListLe] at h1
    | cons b bt =>
      simp only [charListLe] at h1 h2
      by_cases hab : a.toNat < b.toNat
      · have hba : ¬ b.toNat < a.toNat := by omega
        simp [hba, hab] at h2
      · by_cases hba : b.toNat < a.toNat
        · simp [hab, hba] at h1
        · have hn : a.toNat = b.toNat := by omega
          have hc : a = b := by
            have hv : a.val.toNat = b.val.toNat := hn
            exact Char.ext (UInt32.ext hv)
          subst hc
          have h1x : charListLe at1 bt = true := by simpa [hab, hba] using h1
          have h2x : charListLe bt at1 = true := by simpa [hab, hba] using h2
          rw [ih bt h1x h2x]

instance : IsTotal String (fun a b => strLe a b = true) :=
  ⟨fun a b => charListLe_total a.data b.data⟩

instance : IsTrans String (fun a b => strLe a b = true) :=
  ⟨fun a b c => charListLe_trans a.data b.data c.data⟩

instance : IsAntisymm String (fun a b => strLe a b = true) :=
  ⟨fun a b h1 h2 => by
    have hd := charListLe_antisymm a.data b.data h1 h2
    cases a
    cases b
    exact congrArg String.mk hd⟩

theorem sortStrings_perm_eq (l₁ l₂ : List String) (h : l₁.Perm l₂) :
    sortStrings l₁ = sortStrings l₂ := by
  apply List.eq_of_perm_of_sorted
    (r := fun a b : String => strLe a b = true)
  · exact (List.perm_insertionSort _ l₁).trans (h.trans (List.perm_insertionSort _ l₂).symm)
  · exact List.sorted_insertionSort _ l₁
  · exact List.sorted_insertionSort _ l₂

/-! ### The claims -/

/-- C4: for every list of series identifiers and every (positive) batch
ceiling, the chunking of `getMultipleSeries` partitions the list into an
ordered sequence of batches, each of length at most the ceiling, whose
concatenation is the original list (so every id is covered exactly once, in
original order, and concatenating per-batch results preserves input order);
in particular a request for 60 identifiers with no credential configured
(ceiling 25) is split into batches of sizes 25, 25 and 10. -/
theorem splitBatches_partition (ids : List String) (n : Nat) (hn : 0 < n) :
    (splitBatches ids n).flatten = ids
    ∧ (∀ b ∈ splitBatches ids n, b.length ≤ n)
    ∧ (∀ f : String → BLSSeries,
        ((splitBatches ids n).map (fun b => b.map f)).flatten = ids.map f)
    ∧ maxSeriesPerRequest (getConfig {} {}) = 25
    ∧ (splitBatches ((List.range 60).map (fun i => toString i)) 25).map List.length
        = [25, 25, 10] := by
  refine ⟨splitBatches_flatten ids n hn,
    splitBatchesGo_sizes n hn ids.length ids le_rfl, ?_, by decide, by decide⟩
  intro f
  rw [← List.map_flatten, splitBatches_flatten ids n hn]

/-- Witness for C4 at the concrete 60-identifier, ceiling-25 instance. -/
theorem splitBatches_partition_witness :
    (0 : Nat) < 25
    ∧ (splitBatches ((List.range 60).map (fun i => toString i)) 25).flatten
        = (List.range 60).map (fun i => toString i) := by
  refine ⟨by decide, ?_⟩
  exact (splitBatches_partition ((List.range 60).map (fun i => toString i)) 25 (by decide)).1

/-- C5: the cache key is invariant under permutation of the series id list —
two id lists that are permutations of each other with the same optional year
bounds produce equal `CacheKey` strings (so `['A','B']` and `['B','A']` hit
the same cache entry). -/
theorem getCacheKey_perm_invariant (l₁ l₂ : List String) (sy ey : Option Int)
    (h : l₁.Perm l₂) :
    getCacheKey l₁ sy ey = getCacheKey l₂ sy ey := by
  unfold getCacheKey
  rw [sortStrings_perm_eq l₁ l₂ h]

/-- Witness for C5 at `['A','B']` versus `['B','A']` with year bounds 2023. -/
theorem getCacheKey_perm_invariant_witness :
    (["A", "B"] : List String).Perm ["B", "A"]
    ∧ getCacheKey ["A", "B"] (some 2023) (some 2023)
        = getCacheKey ["B", "A"] (some 2023) (some 2023) :=
  ⟨by decide, getCacheKey_perm_invariant ["A", "B"] ["B", "A"] (some 2023) (some 2023) (by decide)⟩

/-- C6 counterexample: with the environment supplying
`BLS_CACHE_TTL_MS = "5"`, `BLS_RETRY_MAX_ATTEMPTS = "7"` and
`BLS_RETRY_BASE_DELAY_MS = "9"` and no explicit override, the client's
resolved configuration still uses the defaults (3600000 / 3 / 1000) — the
environment values for these fields never take precedence, even though the
separate `getBLSConfig` accessor does parse them. -/
theorem getConfig_env_ttl_ignored_cx :
    (getConfig { BLS_CACHE_TTL_MS := some "5" } {}).cacheTTL = 3600000
    ∧ (getConfig { BLS_CACHE_TTL_MS := some "5" } {}).cacheTTL ≠ 5
    ∧ (getConfig { BLS_RETRY_MAX_ATTEMPTS := some "7" } {}).maxRetries = 3
    ∧ (getConfig { BLS_RETRY_MAX_ATTEMPTS := some "7" } {}).maxRetries ≠ 7
    ∧ (getConfig { BLS_RETRY_BASE_DELAY_MS := some "9" } {}).retryDelay = 1000
    ∧ (getConfig { BLS_RETRY_BASE_DELAY_MS := some "9" } {}).retryDelay ≠ 9
    ∧ (getBLSConfig { BLS_CACHE_TTL_MS := some "5" }).cache.ttlMs = some 5
    ∧ (getBLSConfig { BLS_RETRY_MAX_ATTEMPTS := some "7" }).retry.maxAttempts = some 7 := by
  decide

/-- C6 (amended): the client's effective configuration resolves the
credential token and the caching flag with precedence
defaults < environment < explicit override, but the cache TTL, retry attempt
ceiling and retry base delay are resolved from the defaults and explicit
overrides only — the environment has no effect on them (the environment
values for those fields are parsed by the separate `getBLSConfig` accessor,
which the client does not consume). -/
theorem getConfig_resolution (env env2 : Env) (o : BLSClientConfig) :
    (getConfig env o).cacheTTL = o.cacheTTL.getD DEFAULT_CONFIG.cacheTTL
    ∧ (getConfig env o).maxRetries = o.maxRetries.getD DEFAULT_CONFIG.maxRetries
    ∧ (getConfig env o).retryDelay = o.retryDelay.getD DEFAULT_CONFIG.retryDelay
    ∧ getConfig env o
        = getConfig { env with
            BLS_CACHE_TTL_MS := env2.BLS_CACHE_TTL_MS
            BLS_RETRY_MAX_ATTEMPTS := env2.BLS_RETRY_MAX_ATTEMPTS
            BLS_RETRY_BASE_DELAY_MS := env2.BLS_RETRY_BASE_DELAY_MS } o
    ∧ (getConfig env o).apiKey = o.apiKey.getD (env.BLS_API_KEY.getD "")
    ∧ (getConfig env o).enableCache
        = o.enableCache.getD (env.BLS_CACHE_ENABLED != some "false")
    ∧ (getBLSConfig env).cache.ttlMs
        = jsParseInt (orDefaultStr env.BLS_CACHE_TTL_MS "3600000")
    ∧ (getBLSConfig env).retry.maxAttempts
        = jsParseInt (orDefaultStr env.BLS_RETRY_MAX_ATTEMPTS "3") :=
  ⟨rfl, rfl, rfl, rfl, rfl, rfl, rfl, rfl⟩

/-- C7: a cache entry whose age exceeds the TTL behaves exactly as if it were
absent — `fetchSeriesData` over a cache holding a stale entry for the key
returns the same result and performs the same network activity as over the
cache with that entry removed, issuing one new outbound exchange rather than
returning the stale data. -/
theorem stale_entry_behaves_absent (ids : List String) (sy ey : Option Int)
    (o : BLSClientConfig) (env : Env) (oracle : Nat → FetchOutcome) (now : Nat)
    (cache : Cache) (net : NetState) (e : CacheEntry)
    (hget : cacheGet cache (getCacheKey ids sy ey) = some e)
    (hstale : (getConfig env o).cacheTTL < now - e.timestamp) :
    (fetchSeriesData ids sy ey o env oracle now cache net).result
      = (fetchSeriesData ids sy ey o env oracle now
          (cacheRemove cache (getCacheKey ids sy ey)) net).result
    ∧ (fetchSeriesData ids sy ey o env oracle now cache net).net
      = (fetchSeriesData ids sy ey o env oracle now
          (cacheRemove cache (getCacheKey ids sy ey)) net).net
    ∧ ((fetchSeriesData ids sy ey o env oracle now cache net).net).exchanges
      = net.exchanges + 1 := by
  have hvalid : isCacheValid e (getConfig env o).cacheTTL now = false := by
    simp only [isCacheValid, decide_eq_false_iff_not]
    omega
  have h1 : cacheLookup (getConfig env o) cache (getCacheKey ids sy ey) now = none := by
    unfold cacheLookup
    by_cases hc : (getConfig env o).enableCache
    · rw [if_pos hc, hget]
      simp [hvalid]
    · rw [if_neg hc]
  have h2 : cacheLookup (getConfig env o) (cacheRemove cache (getCacheKey ids sy ey))
      (getCacheKey ids sy ey) now = none := by
    unfold cacheLookup
    by_cases hc : (getConfig env o).enableCache
    · rw [if_pos hc, cacheGet_remove]
    · rw [if_neg hc]
  refine ⟨?_, ?_, ?_⟩
  · rw [fetchSeriesData_result_of_miss ids sy ey o env oracle now cache net h1,
      fetchSeriesData_result_of_miss ids sy ey o env oracle now _ net h2]
  · rw [fetchSeriesData_net_of_miss ids sy ey o env oracle now cache net h1,
      fetchSeriesData_net_of_miss ids sy ey o env oracle now _ net h2]
  · rw [fetchSeriesData_net_of_miss ids sy ey o env oracle now cache net h1,
      fetchSeriesExchange_exchanges]

/-- Witness for C7: a single stale entry (age 4000000 ms against the default
1-hour TTL) is refetched. -/
theorem stale_entry_behaves_absent_witness :
    (fetchSeriesData ["A"] none none {} {}
        (fun _ => .success ⟨200, "OK", ⟨"REQUEST_SUCCEEDED", 0, [], some []⟩⟩) 4000000
        [(getCacheKey ["A"] none none, ⟨[⟨"A", []⟩], 0⟩)] {}).net.exchanges
      = ({} : NetState).exchanges + 1 :=
  (stale_entry_behaves_absent ["A"] none none {} {}
    (fun _ => .success ⟨200, "OK", ⟨"REQUEST_SUCCEEDED", 0, [], some []⟩⟩) 4000000
    [(getCacheKey ["A"] none none, ⟨[⟨"A", []⟩], 0⟩)] {} ⟨[⟨"A", []⟩], 0⟩
    (by decide) (by decide)).2.2

/-- C8: when the provider answers successfully but the returned series list
contains no series with the requested identifier, `getSeries` yields absent
(`none`), not an error. -/
theorem getSeries_absent_on_no_match (id : String) (sy ey : Option Int)
    (o : BLSClientConfig) (env : Env) (oracle : Nat → FetchOutcome) (now : Nat)
    (cache : Cache) (net : NetState) (l : List BLSSeries)
    (hok : (fetchSeriesData [id] sy ey o env oracle now cache net).result = .ok l)
    (hno : ∀ s ∈ l, s.seriesID ≠ id) :
    (getSeries id sy ey o env oracle now cache net).result = .ok none := by
  unfold getSeries
  simp only [hok, Except.map]
  have hfind : l.find? (fun s => s.seriesID == id) = none := by
    rw [List.find?_eq_none]
    intro s hs
    simpa using hno s hs
  rw [hfind]

/-- Witness for C8: `getSeries 'UNKNOWN_ID'` against a response holding only
the series `'OTHER'` returns absent. -/
theorem getSeries_absent_on_no_match_witness :
    (getSeries "UNKNOWN_ID" (some 2023) (some 2023) {} {}
        (fun _ => .success ⟨200, "OK", ⟨"REQUEST_SUCCEEDED", 0, [], some [⟨"OTHER", []⟩]⟩⟩)
        0 [] {}).result = .ok none :=
  getSeries_absent_on_no_match "UNKNOWN_ID" (some 2023) (some 2023) {} {}
    (fun _ => .success ⟨200, "OK", ⟨"REQUEST_SUCCEEDED", 0, [], some [⟨"OTHER", []⟩]⟩⟩)
    0 [] {} [⟨"OTHER", []⟩] (by decide) (by decide)

/-- C2 counterexample: for a 26-id list (over the unauthenticated ceiling of
25) two identical successive cache-enabled calls — the second 1000 ms after
the first, well within the 1-hour TTL, the first succeeding — issue two
outbound exchanges (one per batch of the first call), not exactly one, so
the claim fails as stated for that id list. -/
theorem two_calls_not_single_exchange_cx :
    (getMultipleSeries ((List.range 26).map (fun i => toString (100 + i))) none none {} {}
        (fun _ => .success ⟨200, "OK", ⟨"REQUEST_SUCCEEDED", 0, [], some []⟩⟩)
        0 [] {}).result = .ok []
    ∧ (getMultipleSeries ((List.range 26).map (fun i => toString (100 + i))) none none {} {}
        (fun _ => .success ⟨200, "OK", ⟨"REQUEST_SUCCEEDED", 0, [], some []⟩⟩) 1000
        (getMultipleSeries ((List.range 26).map (fun i => toString (100 + i))) none none {} {}
          (fun _ => .success ⟨200, "OK", ⟨"REQUEST_SUCCEEDED", 0, [], some []⟩⟩)
          0 [] {}).cache
        (getMultipleSeries ((List.range 26).map (fun i => toString (100 + i))) none none {} {}
          (fun _ => .success ⟨200, "OK", ⟨"REQUEST_SUCCEEDED", 0, [], some []⟩⟩)
          0 [] {}).net).net
      = (getMultipleSeries ((List.range 26).map (fun i => toString (100 + i))) none none {} {}
          (fun _ => .success ⟨200, "OK", ⟨"REQUEST_SUCCEEDED", 0, [], some []⟩⟩)
          0 [] {}).net
    ∧ ((getMultipleSeries ((List.range 26).map (fun i => toString (100 + i))) none none {} {}
        (fun _ => .success ⟨200, "OK", ⟨"REQUEST_SUCCEEDED", 0, [], some []⟩⟩)
        0 [] {}).net).exchanges = 2 := by
  decide

/-- C2 (amended): for a cache-enabled client and an id list no longer than
the batch ceiling, starting from a cache with no fresh entry for the
computed key, two identical successive calls to `getMultipleSeries` (the
second within the cache TTL of the first, the first succeeding) issue
exactly one outbound exchange: the second call finds the fresh entry stored
by the first and returns it with no network access, whatever its transport
would have answered. -/
theorem getMultipleSeries_cached_second_call (ids : List String) (sy ey : Option Int)
    (o : BLSClientConfig) (env : Env) (oracle oracle2 : Nat → FetchOutcome)
    (now1 now2 : Nat) (cache : Cache) (net : NetState) (data : List BLSSeries)
    (hc : (getConfig env o).enableCache = true)
    (hlen : ids.length ≤ maxSeriesPerRequest (getConfig env o))
    (hnofresh : cacheLookup (getConfig env o) cache (getCacheKey ids sy ey) now1 = none)
    (hok : (getMultipleSeries ids sy ey o env oracle now1 cache net).result = .ok data)
    (hfresh : now2 - now1 < (getConfig env o).cacheTTL) :
    (getMultipleSeries ids sy ey o env oracle2 now2
        (getMultipleSeries ids sy ey o env oracle now1 cache net).cache
        (getMultipleSeries ids sy ey o env oracle now1 cache net).net).result = .ok data
    ∧ (getMultipleSeries ids sy ey o env oracle2 now2
        (getMultipleSeries ids sy ey o env oracle now1 cache net).cache
        (getMultipleSeries ids sy ey o env oracle now1 cache net).net).cache
      = (getMultipleSeries ids sy ey o env oracle now1 cache net).cache
    ∧ (getMultipleSeries ids sy ey o env oracle2 now2
        (getMultipleSeries ids sy ey o env oracle now1 cache net).cache
        (getMultipleSeries ids sy ey o env oracle now1 cache net).net).net
      = (getMultipleSeries ids sy ey o env oracle now1 cache net).net
    ∧ ((getMultipleSeries ids sy ey o env oracle now1 cache net).net).exchanges
      = net.exchanges + 1 := by
  have hm1 := getMultipleSeries_single ids sy ey o env oracle now1 cache net hlen
  have hok2 : (fetchSeriesData ids sy ey o env oracle now1 cache net).result = .ok data := by
    rw [hm1] at hok
    exact hok
  have hcache1 : (fetchSeriesData ids sy ey o env oracle now1 cache net).cache
      = cacheSet cache (getCacheKey ids sy ey) ⟨data, now1⟩ := by
    rw [fetchSeriesData_cache_of_success ids sy ey o env oracle now1 cache net data
      hnofresh hok2, if_pos hc]
  have hlookup2 : cacheLookup (getConfig env o)
      (cacheSet cache (getCacheKey ids sy ey) ⟨data, now1⟩) (getCacheKey ids sy ey) now2
      = some data := by
    unfold cacheLookup
    rw [if_pos hc, cacheGet_set]
    simp [isCacheValid, hfresh]
  rw [hm1]
  dsimp only
  rw [hcache1]
  rw [getMultipleSeries_single ids sy ey o env oracle2 now2
    (cacheSet cache (getCacheKey ids sy ey) ⟨data, now1⟩)
    (fetchSeriesData ids sy ey o env oracle now1 cache net).net hlen]
  rw [fetchSeriesData_hit ids sy ey o env oracle2 now2
    (cacheSet cache (getCacheKey ids sy ey) ⟨data, now1⟩)
    (fetchSeriesData ids sy ey o env oracle now1 cache net).net data hlookup2]
  refine ⟨rfl, rfl, rfl, ?_⟩
  rw [fetchSeriesData_net_of_miss ids sy ey o env oracle now1 cache net hnofresh,
    fetchSeriesExchange_exchanges]

/-- Witness for C2 (amended) at a two-element list, a first call succeeding
on its first attempt and a second call 1000 ms later. -/
theorem getMultipleSeries_cached_second_call_witness :
    (getMultipleSeries ["B", "A"] none none {} {} (fun _ => .networkError "offline") 1000
        (getMultipleSeries ["B", "A"] none none {} {}
          (fun _ => .success ⟨200, "OK", ⟨"REQUEST_SUCCEEDED", 0, [], some []⟩⟩)
          0 [] {}).cache
        (getMultipleSeries ["B", "A"] none none {} {}
          (fun _ => .success ⟨200, "OK", ⟨"REQUEST_SUCCEEDED", 0, [], some []⟩⟩)
          0 [] {}).net).result = .ok []
    ∧ ((getMultipleSeries ["B", "A"] none none {} {}
        (fun _ => .success ⟨200, "OK", ⟨"REQUEST_SUCCEEDED", 0, [], some []⟩⟩)
        0 [] {}).net).exchanges = ({} : NetState).exchanges + 1 := by
  have h := getMultipleSeries_cached_second_call ["B", "A"] none none {} {}
    (fun _ => .success ⟨200, "OK", ⟨"REQUEST_SUCCEEDED", 0, [], some []⟩⟩)
    (fun _ => .networkError "offline") 0 1000 [] {} []
    (by decide) (by decide) (by decide) (by decide) (by decide)
  exact ⟨h.1, h.2.2.2⟩

/-- C3 counterexample: a successful cache-enabled 26-id call (over the
unauthenticated ceiling of 25) never stores anything under the CacheKey
computed from the full id list — only the two per-batch keys are populated,
so the claim fails as stated for multi-batch calls. -/
theorem multibatch_full_key_not_cached_cx :
    (getMultipleSeries ((List.range 26).map (fun i => toString (100 + i))) none none {} {}
        (fun _ => .success ⟨200, "OK", ⟨"REQUEST_SUCCEEDED", 0, [], some []⟩⟩)
        0 [] {}).result = .ok []
    ∧ cacheGet
        (getMultipleSeries ((List.range 26).map (fun i => toString (100 + i))) none none {} {}
          (fun _ => .success ⟨200, "OK", ⟨"REQUEST_SUCCEEDED", 0, [], some []⟩⟩)
          0 [] {}).cache
        (getCacheKey ((List.range 26).map (fun i => toString (100 + i))) none none)
      = none := by
  decide

/-- C3 (amended): for every successful cache-enabled `getMultipleSeries`
call whose id list does not exceed the batch ceiling and which does not
return early from a fresh cache entry, the result is stored in the cache
under the single CacheKey computed from the full `{ids, startYear, endYear}`
with the current timestamp.  (A call split into multiple batches instead
stores each batch's result under that batch's own key and never populates
the full-list key.) -/
theorem getMultipleSeries_caches_result (ids : List String) (sy ey : Option Int)
    (o : BLSClientConfig) (env : Env) (oracle : Nat → FetchOutcome) (now : Nat)
    (cache : Cache) (net : NetState) (data : List BLSSeries)
    (hc : (getConfig env o).enableCache = true)
    (hlen : ids.length ≤ maxSeriesPerRequest (getConfig env o))
    (hnofresh : cacheLookup (getConfig env o) cache (getCacheKey ids sy ey) now = none)
    (hok : (getMultipleSeries ids sy ey o env oracle now cache net).result = .ok data) :
    (getMultipleSeries ids sy ey o env oracle now cache net).cache
      = cacheSet cache (getCacheKey ids sy ey) ⟨data, now⟩ := by
  rw [getMultipleSeries_single ids sy ey o env oracle now cache net hlen] at hok ⊢
  dsimp only at hok ⊢
  rw [fetchSeriesData_cache_of_success ids sy ey o env oracle now cache net data
    hnofresh hok, if_pos hc]

/-- Witness for C3 (amended) at a concrete single-batch call. -/
theorem getMultipleSeries_caches_result_witness :
    (getMultipleSeries ["B", "A"] (some 2020) (some 2023) {} {}
        (fun _ => .success ⟨200, "OK", ⟨"REQUEST_SUCCEEDED", 0, [], some []⟩⟩)
        42 [] {}).cache
      = cacheSet [] (getCacheKey ["B", "A"] (some 2020) (some 2023)) ⟨[], 42⟩ :=
  getMultipleSeries_caches_result ["B", "A"] (some 2020) (some 2023) {} {}
    (fun _ => .success ⟨200, "OK", ⟨"REQUEST_SUCCEEDED", 0, [], some []⟩⟩)
    42 [] {} [] (by decide) (by decide) (by decide) (by decide)

theorem sortStrings_singleton (s : String) : sortStrings [s] = [s] := by
  simp [sortStrings, List.insertionSort, List.orderedInsert]

/-- C10: as a side effect of cache-key construction, `getCacheKey` sorts the
caller's `seriesIds` array in place; for `getSeries` and for
`getMultipleSeries` with an id list within the batch ceiling, the array
after the call is in sorted order and every request body issued by the call
lists the series identifiers in sorted order rather than in the caller's
original order. -/
theorem seriesIds_sorted_side_effect (ids : List String) (id : String) (sy ey : Option Int)
    (o : BLSClientConfig) (env : Env) (oracle : Nat → FetchOutcome) (now : Nat)
    (cache : Cache) (net : NetState)
    (hlen : ids.length ≤ maxSeriesPerRequest (getConfig env o)) :
    (getMultipleSeries ids sy ey o env oracle now cache net).idsAfter = sortStrings ids
    ∧ (∀ r ∈ (getMultipleSeries ids sy ey o env oracle now cache net).net.requests,
        r ∈ net.requests ∨ r.seriesid = sortStrings ids)
    ∧ (getSeries id sy ey o env oracle now cache net).idsAfter = [id]
    ∧ (∀ r ∈ (getSeries id sy ey o env oracle now cache net).net.requests,
        r ∈ net.requests ∨ r.seriesid = [id]) := by
  rw [getMultipleSeries_single ids sy ey o env oracle now cache net hlen]
  dsimp only
  refine ⟨fetchSeriesData_idsAfter ids sy ey o env oracle now cache net,
    fun r hr => fetchSeriesData_requests ids sy ey o env oracle now cache net r hr, ?_, ?_⟩
  · simp only [getSeries]
    rw [fetchSeriesData_idsAfter]
    exact sortStrings_singleton id
  · intro r hr
    simp only [getSeries] at hr
    rcases fetchSeriesData_requests [id] sy ey o env oracle now cache net r hr with hm | he
    · exact Or.inl hm
    · right
      rw [he]
      exact sortStrings_singleton id

/-- Witness for C10 at the unsorted list `['B','A']`: the caller's array ends
up `['A','B']` — not its original order. -/
theorem seriesIds_sorted_side_effect_witness :
    (getMultipleSeries ["B", "A"] none none {} {}
        (fun _ => .success ⟨200, "OK", ⟨"REQUEST_SUCCEEDED", 0, [], some []⟩⟩)
        0 [] {}).idsAfter = sortStrings ["B", "A"]
    ∧ sortStrings ["B", "A"] = ["A", "B"] := by
  refine ⟨(seriesIds_sorted_side_effect ["B", "A"] "X" none none {} {}
    (fun _ => .success ⟨200, "OK", ⟨"REQUEST_SUCCEEDED", 0, [], some []⟩⟩)
    0 [] {} (by decide)).1, by decide⟩

/-- C9: `getJobSpecificEconomicData` returns an empty sequence with no
network activity whenever economic enrichment is globally disabled, or the
mapper has no mapping for the entity, or the mapping resolves to an empty
set of series identifiers; none of these is an error. -/
theorem economicData_empty_cases (mappings : List CareerBlsMapping) (careerId : String)
    (env : Env) (oracle : Nat → FetchOutcome) (now : Nat) (currentYear : Int)
    (nowISO : String) (cache : Cache) (net : NetState)
    (h : (getBLSConfig env).enabled = false
        ∨ getBlsMappingForCareerIn mappings careerId = none
        ∨ (∀ m, getBlsMappingForCareerIn mappings careerId = some m →
            wantedSeriesOf m = [])) :
    getJobSpecificEconomicDataIn mappings careerId env oracle now currentYear nowISO cache net
      = ⟨.ok [], cache, net⟩ := by
  unfold getJobSpecificEconomicDataIn
  rcases h with h | h | h
  · simp [h]
  · by_cases he : (getBLSConfig env).enabled
    · simp [he, h]
    · simp [he]
  · by_cases he : (getBLSConfig env).enabled
    · cases hm : getBlsMappingForCareerIn mappings careerId with
      | none => simp [he, hm]
      | some m =>
        have hw : wantedSeriesOf m = [] := h m hm
        simp [he, hm, hw]
    · simp [he]

/-- Witness for C9: an entity with no configured mapping yields an empty
indicator list and an untouched cache and network state. -/
theorem economicData_empty_cases_witness :
    getJobSpecificEconomicDataIn CAREER_BLS_MAPPINGS "unknown-career" {}
        (fun _ => .networkError "offline") 0 2025 "2025-01-01T00:00:00.000Z" [] {}
      = ⟨.ok [], [], {}⟩ :=
  economicData_empty_cases CAREER_BLS_MAPPINGS "unknown-career" {}
    (fun _ => .networkError "offline") 0 2025 "2025-01-01T00:00:00.000Z" [] {}
    (Or.inr (Or.inl (by decide)))

/-- C1: for a request whose every attempt has a retryable outcome (transport
failure or HTTP 429), the retry loop sleeps `retryDelay * 2 ^ attemptIndex`
after the failed attempt with index `attemptIndex` (starting at 0), makes
exactly `maxRetries` attempts, and then fails with the `TransientFailure`
error naming the attempt count and the last recorded cause; in particular,
with `maxRetries = 2` and a fetcher that always reports a transient fault,
`getSeries` fails with that `TransientFailure` after exactly 2 attempts,
having slept 10 ms and then 20 ms. -/
theorem fetchWithRetry_exhausts_on_retryable (oracle : Nat → FetchOutcome)
    (body : RequestBody) (cfg : ResolvedConfig) (st : NetState)
    (h : ∀ i, i < cfg.maxRetries → retryableB (oracle (st.attempts + i)) = true) :
    fetchWithRetry oracle body cfg st =
      (.transientFailure ("BLS API request failed after " ++ toString cfg.maxRetries
          ++ " attempts: "
          ++ (lastCauseAux oracle st.attempts cfg.maxRetries none).getD "Unknown error"),
       { st with
         exchanges := st.exchanges + 1
         attempts := st.attempts + cfg.maxRetries
         requests := st.requests ++ List.replicate cfg.maxRetries body
         sleeps := st.sleeps ++ (List.range cfg.maxRetries).map
           (fun i => cfg.retryDelay * 2 ^ i) })
    ∧ (getSeries "CUSR0000SA0" (some 2023) (some 2023)
          { maxRetries := some 2, retryDelay := some 10 } {}
          (fun _ => .networkError "network down") 0 [] {}).result
        = .error (.transientFailure
            "BLS API request failed after 2 attempts: network down")
    ∧ (getSeries "CUSR0000SA0" (some 2023) (some 2023)
          { maxRetries := some 2, retryDelay := some 10 } {}
          (fun _ => .networkError "network down") 0 [] {}).net.attempts = 2
    ∧ (getSeries "CUSR0000SA0" (some 2023) (some 2023)
          { maxRetries := some 2, retryDelay := some 10 } {}
          (fun _ => .networkError "network down") 0 [] {}).net.sleeps = [10, 20] := by
  refine ⟨?_, by decide, by decide, by decide⟩
  unfold fetchWithRetry
  rw [fetchWithRetryGo_exhaust oracle body cfg.maxRetries cfg.retryDelay cfg.maxRetries 0 none
    { st with exchanges := st.exchanges + 1 } (by simpa using h)]
  dsimp only
  have hmap : (List.range cfg.maxRetries).map (fun i => cfg.retryDelay * 2 ^ (0 + i))
      = (List.range cfg.maxRetries).map (fun i => cfg.retryDelay * 2 ^ i) := by
    apply List.map_congr_left
    intro i _
    rw [Nat.zero_add]
  rw [hmap]

/-- Witness for C1 at an always-failing transport with the default
configuration overridden to 2 attempts. -/
theorem fetchWithRetry_exhausts_witness :
    (fetchWithRetry (fun _ => FetchOutcome.networkError "boom")
        ⟨["CUSR0000SA0"], none, none, none⟩ (getConfig {} { maxRetries := some 2 }) {}).1
      = .transientFailure "BLS API request failed after 2 attempts: boom"
    ∧ ((fetchWithRetry (fun _ => FetchOutcome.networkError "boom")
        ⟨["CUSR0000SA0"], none, none, none⟩ (getConfig {} { maxRetries := some 2 }) {}).2).sleeps
      = [1000, 2000] := by
  have h := (fetchWithRetry_exhausts_on_retryable (fun _ => FetchOutcome.networkError "boom")
    ⟨["CUSR0000SA0"], none, none, none⟩ (getConfig {} { maxRetries := some 2 }) {}
    (by decide)).1
  rw [h]
  exact ⟨by decide, by decide⟩
